import Mathlib

/-!
Verification of the akeydo daemon against its natural-language specification.

The definitions below are a shallow embedding of the Python source:

* `Akeydo.ServiceState` and its operations embed `akeydo/service.py`
  (`AkeydoService`): the target ring, the `Target` property getter/setter,
  `toggle`, `set_host`, `vm_prepare` and `vm_release`.  Plug-in coroutines are
  scheduled by `_call_plugin_func` via `create_task` and never awaited, so the
  embedding records the scheduled plug-in outcomes as data instead of running
  them; property-change emissions are recorded as a list of display strings.
* `Akeydo.VirtualMachineConfig` embeds the memory-unit table and the cpuset
  parsing of `akeydo/libvirt.py`.  Python's built-in `int` is modelled for
  plain decimal literals (surrounding whitespace, an optional sign, and a
  non-empty run of ASCII digits), which covers every value the parser meets.
* `Akeydo.CpuDriver` embeds `akeydo/plugins/cpu/drivers/cgroup2.py`.
* `Akeydo.MemoryManager` embeds `akeydo/plugins/memory/manager.py`.
* `Akeydo.GpuManager` embeds `akeydo/plugins/gpu/manager.py` as the sequence
  of externally visible actions its `vm_prepare` performs.
* `Akeydo.ReplicatedDevice` embeds one iteration of the `_replicate` loop of
  `akeydo/plugins/devices/input.py` together with its three chord detectors.
-/

namespace Akeydo

/-- Python truthiness-based `or` on optional strings: `None` and the empty
string are falsy, so `a or b` yields `b` for those and `a` otherwise.  Used to
embed expressions such as `val or self._current_host` in `service.py`. -/
def pyOr (a b : Option String) : Option String :=
  match a with
  | none => b
  | some s => if s = "" then b else some s

/-- Display name of a target as computed by `val or "host device"` in the
`target` setter: the host (or an empty name) displays as "host device". -/
def display (v : Option String) : String :=
  match v with
  | none => "host device"
  | some s => if s = "" then "host device" else s

/-- State of `AkeydoService`: `_released`, `_current_host`, `_targets` and
`_target`.  The true host is the Python value `None`, embedded as `none`. -/
structure ServiceState where
  released : Bool
  currentHost : Option String
  targets : List (Option String)
  target : Option String
deriving DecidableEq, Repr

namespace ServiceState

/-- Initial service state: `_targets = [None]`, `_target = None`,
`_current_host = None`, `_released = False`. -/
def init : ServiceState := ⟨false, none, [none], none⟩

/-- The `Target` property getter: `current_target = _target or _current_host`,
returned unless the service is released, in which case `_current_host`. -/
def targetGet (s : ServiceState) : Option String :=
  if s.released then s.currentHost else pyOr s.target s.currentHost

/-- The `Target` property setter.  Converts the value with
`val = val or self._current_host`; a no-op when it equals the current target,
otherwise clears `_released`, stores the value and emits one property change
with the display name.  Plug-in `target_changed` tasks are scheduled
fire-and-forget in the source and carry no service-state effect. -/
def targetSet (s : ServiceState) (v : Option String) : ServiceState × List String :=
  let val := pyOr v s.currentHost
  if val = s.target then (s, [])
  else ({ s with released := false, target := val }, [display val])

/-- The `set_host` method: if the property getter currently equals
`_current_host`, first redirect the target to the new host; then replace
`_current_host`; finally insert `None` at position 0 when the host is restored,
or remove the first `None` (when present) when a guest assumes the host role. -/
def set_host (s : ServiceState) (vm : Option String) : ServiceState × List String :=
  let p : ServiceState × List String :=
    if targetGet s = s.currentHost then targetSet s vm else (s, [])
  let s2 : ServiceState := { p.1 with currentHost := vm }
  let s3 : ServiceState :=
    if vm = none then { s2 with targets := none :: s2.targets }
    else if (none : Option String) ∈ s2.targets then
      { s2 with targets := s2.targets.erase none }
    else s2
  (s3, p.2)

/-- The ring-advance expression of `toggle`:
`self._targets[(self._targets.index(self._target) + 1) % len(self._targets)]`. -/
def ringNext (l : List (Option String)) (t : Option String) : Option String :=
  l.getD ((l.indexOf t + 1) % l.length) none

/-- The `Toggle` D-Bus method: assign the ring successor through the `Target`
property setter. -/
def toggle (s : ServiceState) : ServiceState × List String :=
  targetSet s (ringNext s.targets s.target)

/-- Iterated `Toggle`, used to state the round-trip property R2. -/
def toggleN : Nat → ServiceState → ServiceState
  | 0, s => s
  | k + 1, s => toggleN k (toggle s).1

/-- Outcome of a plug-in coroutine once the event loop eventually runs it. -/
inductive PluginOutcome where
  | ok
  | raises
deriving DecidableEq, Repr

/-- The `Prepare` D-Bus method (`vm_prepare`).  Returns the boolean result,
the successor state and the list of plug-in coroutines that were scheduled
with `create_task`.  A duplicate name or an XML parse failure returns `False`
inside the method's `try` block; otherwise the guest is appended to `_targets`
and every plug-in coroutine is scheduled without being awaited, so the result
is `True` regardless of what those coroutines later do. -/
def vm_prepare (s : ServiceState) (vm : String) (parseOk : Bool)
    (plugins : List PluginOutcome) : Bool × ServiceState × List PluginOutcome :=
  if some vm ∈ s.targets then (false, s, [])
  else if ¬ parseOk then (false, s, [])
  else (true, { s with targets := s.targets ++ [some vm] }, plugins)

/-- Result of the `Release` D-Bus method: either a normal return carrying the
boolean result, the successor state and the emitted property changes, or an
uncaught exception (`raised`) carrying the state at the point it escaped. -/
inductive ReleaseResult where
  | ok (ret : Bool) (s : ServiceState) (emits : List String)
  | raised (s : ServiceState)
deriving DecidableEq, Repr

/-- The `Release` D-Bus method (`vm_release`).  An unmanaged name returns
`False`.  The XML is parsed before any state change and `vm_release` has no
exception handler around the parse, so a parse failure propagates with the
state untouched.  Otherwise the guest is removed from `_targets`, the host is
reset when the guest had assumed the host role, and the target is redirected
to `_current_host` when the guest was the active target.  Plug-in `vm_release`
coroutines are scheduled fire-and-forget and individually guarded, so they do
not affect the result. -/
def vm_release (s : ServiceState) (vm : String) (parseOk : Bool) : ReleaseResult :=
  if some vm ∉ s.targets then .ok false s []
  else if ¬ parseOk then .raised s
  else
    let s1 := { s with targets := s.targets.erase (some vm) }
    let p1 := if some vm = s1.currentHost then set_host s1 none else (s1, [])
    let p2 := if p1.1.target = some vm then targetSet p1.1 p1.1.currentHost else (p1.1, [])
    .ok true p2.1 (p1.2 ++ p2.2)

end ServiceState

namespace VirtualMachineConfig

/-- The `_UNITS` table of `VirtualMachineConfig`: multiplier for each
recognized memory-unit string, `none` for an unknown unit (a `KeyError` in the
source). -/
def UNITS (u : String) : Option Nat :=
  if u = "b" then some 1
  else if u = "bytes" then some 1
  else if u = "KB" then some (10 ^ 3)
  else if u = "k" then some (2 ^ 10)
  else if u = "KiB" then some (2 ^ 10)
  else if u = "MB" then some (10 ^ 6)
  else if u = "M" then some (2 ^ 20)
  else if u = "MiB" then some (2 ^ 20)
  else if u = "GB" then some (10 ^ 9)
  else if u = "G" then some (2 ^ 30)
  else if u = "GiB" then some (2 ^ 30)
  else if u = "TB" then some (10 ^ 12)
  else if u = "T" then some (2 ^ 40)
  else if u = "TiB" then some (2 ^ 40)
  else none

/-- The arithmetic kernel of `_parse_memory`: the element text (a non-negative
count) times the multiplier of the `unit` attribute, which defaults to `"b"`
when absent. -/
def parse_memory (mem : Nat) (unit : Option String) : Option Nat :=
  (UNITS (unit.getD "b")).map (fun m => mem * m)

/-- Splitting of a character list on a separator character, the semantics of
Python `str.split(sep)` for a one-character separator (as used with `","` and
`"-"` in `_parse_cpusets` and `_parse_cpuset`). -/
def splitOnChar (sep : Char) : List Char → List (List Char)
  | [] => [[]]
  | c :: rest =>
    let r := splitOnChar sep rest
    if c = sep then [] :: r
    else
      match r with
      | [] => [[c]]
      | h :: t => (c :: h) :: t

/-- Conversion of a run of ASCII digits to a number, `none` when the run is
empty or holds a non-digit. -/
def digitsToNat (cs : List Char) : Option Nat :=
  if cs = [] then none
  else if cs.all Char.isDigit then
    some (cs.foldl (fun a c => a * 10 + (c.toNat - 48)) 0)
  else none

/-- Whitespace stripping from both ends, the `str.strip()` step Python's
`int` applies to its argument. -/
def pyStrip (cs : List Char) : List Char :=
  ((cs.dropWhile Char.isWhitespace).reverse.dropWhile Char.isWhitespace).reverse

/-- Model of Python `int(s)` on plain decimal literals: surrounding whitespace
is stripped, an optional sign is honoured, and the rest must be a non-empty
digit run; anything else is a `ValueError` (`none`). -/
def pyInt (cs : List Char) : Option Int :=
  match pyStrip cs with
  | '-' :: rest => (digitsToNat rest).map (fun n => -(n : Int))
  | '+' :: rest => (digitsToNat rest).map (fun n => (n : Int))
  | ds => (digitsToNat ds).map (fun n => (n : Int))

/-- The inclusive range `[lo, lo+1, ..., hi]` produced by
`range(lower, upper + 1)` after the bounds have been normalized. -/
def intRange (lo hi : Int) : List Int :=
  (List.range (hi + 1 - lo).toNat).map (fun k => lo + (k : Int))

/-- The `_parse_cpuset` static method: a hyphenated element must split into
exactly two integers (any other shape raises `ValueError`, which is caught and
yields the empty result), with inverted bounds swapped; a plain element yields
a singleton; an unparseable element yields the empty result. -/
def parse_cpuset (cpuset : List Char) : List Int :=
  if cpuset.contains '-' then
    match splitOnChar '-' cpuset with
    | [lo, hi] =>
      match pyInt lo, pyInt hi with
      | some l, some u =>
        if u < l then intRange u l else intRange l u
      | _, _ => []
    | _ => []
  else
    match pyInt cpuset with
    | some n => [n]
    | none => []

/-- Parsing of one `cpuset` attribute string as done by `_parse_cpusets`:
split on commas and chain the per-element results. -/
def parse_cpuset_attr (s : String) : List Int :=
  (splitOnChar ',' s.toList).flatMap parse_cpuset

/-- The full `_parse_cpusets`: the union (a `frozenset` in the source) of the
per-attribute results over all `vcpupin` elements. -/
def parse_cpusets (attrs : List String) : Finset Int :=
  (attrs.flatMap parse_cpuset_attr).toFinset

end VirtualMachineConfig

namespace CpuDriver

/-- State of the cgroup-v2 driver: `_all_cpus = frozenset(range(cores))` and
the mutable `_vm_cpus` set. -/
structure Driver where
  allCpus : Finset Nat
  vmCpus : Finset Nat
deriving DecidableEq

/-- The driver constructor: all CPUs present, no guest CPUs shielded. -/
def mkDriver (cores : Nat) : Driver := ⟨Finset.range cores, ∅⟩

/-- The value `(self._all_cpus - self._vm_cpus) or {0}` computed by
`_set_host_cpus` and written to `cpuset.cpus` of every host slice: an empty
difference is falsy in Python, so the fallback `{0}` is used then. -/
def host_cpus (d : Driver) : Finset Nat :=
  if d.allCpus \ d.vmCpus = ∅ then {0} else d.allCpus \ d.vmCpus

/-- The fixed host slices whose `cpuset.cpus` receive `host_cpus`. -/
def HOST_CGROUPS : List String := ["init.scope", "user.slice", "system.slice"]

/-- The `shield_cpu` method: add the CPUs to `_vm_cpus` (the write of
`host_cpus` follows from the new state). -/
def shield_cpu (d : Driver) (cpus : List Nat) : Driver :=
  { d with vmCpus := d.vmCpus ∪ cpus.toFinset }

/-- The `unshield_cpu` method: remove the CPUs from `_vm_cpus`. -/
def unshield_cpu (d : Driver) (cpus : List Nat) : Driver :=
  { d with vmCpus := d.vmCpus \ cpus.toFinset }

/-- One driver call arising from a guest lifecycle event. -/
inductive CpuOp where
  | shield (cpus : List Nat)
  | unshield (cpus : List Nat)
deriving DecidableEq, Repr

/-- Apply a sequence of shield/unshield calls to a driver state. -/
def applyOps : List CpuOp → Driver → Driver
  | [], d => d
  | .shield cpus :: rest, d => applyOps rest (shield_cpu d cpus)
  | .unshield cpus :: rest, d => applyOps rest (unshield_cpu d cpus)

end CpuDriver

namespace MemoryManager

/-- The `get_1g_hugepages` method: bytes floored to MiB, then to GiB. -/
def get_1g_hugepages (size : Nat) : Nat :=
  size / 1024 / 1024 / 1024

/-- The `get_2m_hugepages` method (present in the source but never called by
`vm_prepare`). -/
def get_2m_hugepages (size : Nat) : Nat :=
  let memInMb := size / 1024 / 1024
  memInMb / 2 + memInMb % 2

/-- The allocation decision of the memory plug-in's `vm_prepare`, as a pure
function of the guest's hugepages flag and memory size and of the
pre-allocation `HugePages_Free` and `HugePages_Total` counters (the latter is
read from the 1048576-kB `nr_hugepages` file).  The result is the write it
performs: `none` when nothing is written (no hugepages backing, or enough free
pages already), otherwise the page size in kB — hardcoded to `1048576` with a
`TODO: FIX HACK` comment in the source — and the value written to that page
size's `nr_hugepages` file. -/
def vm_prepare (hugepages : Bool) (memory : Nat) (freeHuge totalHuge : Nat) :
    Option (Nat × Nat) :=
  if ¬ hugepages then none
  else
    let hugepagesz := 1048576
    let pages := get_1g_hugepages memory
    if pages ≤ freeHuge then none
    else some (hugepagesz, totalHuge + pages)

/-- The deallocation performed by the memory plug-in's `vm_release`: always
writes `HugePages_Total - pages` to the 1048576-kB `nr_hugepages` file when
the guest is hugepages-backed. -/
def vm_release (hugepages : Bool) (memory : Nat) (totalHuge : Nat) :
    Option (Nat × Int) :=
  if ¬ hugepages then none
  else some (1048576, (totalHuge : Int) - (get_1g_hugepages memory : Int))

end MemoryManager

namespace GpuManager

/-- A PCI address as parsed from the domain XML: domain, bus, slot, function. -/
abbrev Device := Nat × Nat × Nat × Nat

/-- Externally visible actions of the GPU plug-in, in program order. -/
inductive GpuAction where
  | stopDisplayManager
  | unbindVtcons
  | unbindFramebuffer
  | nodedevDetach
  | unloadDriver
  | loadVfio
  | setHostCall (vm : Option String)
  | nodedevReattach
  | loadDriver
  | bindVtcons
  | bindFramebuffer
  | startDisplayManager
deriving DecidableEq, Repr

/-- The GPU plug-in's `vm_prepare` loop over `config.pci_devices`: a boot GPU
gets the full detach sequence and iteration continues; the first device that
is NOT the boot GPU makes the plug-in mark the guest as host override
(`self._service.set_host(vm_name)`) and return immediately. -/
def vm_prepare (isBootGpu : Device → Bool) (vmName : String) :
    List Device → List GpuAction
  | [] => []
  | d :: rest =>
    if isBootGpu d then
      [.stopDisplayManager, .unbindVtcons, .unbindFramebuffer,
       .nodedevDetach, .unloadDriver, .loadVfio] ++ vm_prepare isBootGpu vmName rest
    else
      [.setHostCall (some vmName)]

/-- The GPU plug-in's `vm_release` loop: the first boot GPU gets the reattach
sequence, the host is restored with `set_host()` and iteration stops; other
devices are skipped. -/
def vm_release (isBootGpu : Device → Bool) :
    List Device → List GpuAction
  | [] => []
  | d :: rest =>
    if isBootGpu d then
      [.nodedevReattach, .loadDriver, .bindVtcons, .bindFramebuffer,
       .startDisplayManager, .setHostCall none]
    else
      vm_release isBootGpu rest

end GpuManager

namespace ReplicatedDevice

/-- An evdev input event: type, code and value. -/
structure InputEvent where
  type : Nat
  code : Nat
  value : Int
deriving DecidableEq, Repr

/-- The evdev `EV_KEY` event type. -/
def EV_KEY : Nat := 1

/-- The mutable flags of the three chord detectors nested in `_replicate`:
`is_release`, `is_toggle` and `hotkey_triggered`. -/
structure DetectorState where
  isRelease : Bool
  isToggle : Bool
  hotkeyTriggered : Option (Finset Nat)
deriving DecidableEq

/-- Observable actions of one iteration of the replicate loop, in order. -/
inductive RepAction where
  | writeEvent (sink : Nat) (ev : InputEvent)
  | syn (sink : Nat)
  | sleepDelay
  | toggleReleased
  | callToggle
  | setTarget (t : Option String)
deriving DecidableEq

/-- Static context of one replicate-loop iteration: the `_targets` sink map
(sink handles numbered by `Nat`), the manager's current target as read through
`self._manager.target`, the configured release and toggle chords, and the
`_hotkeys` chord-to-guest map (an association list; the source uses a dict
with distinct chord keys). -/
structure Env where
  sinks : Option String → Option Nat
  managerTarget : Option String
  releaseChord : Option (Finset Nat)
  toggleChord : Option (Finset Nat)
  hotkeys : List (Finset Nat × Option String)

/-- The `self._target` property under a fixed environment: the sink stored
for the manager's current target, if any. -/
def currentSink (env : Env) : Option Nat :=
  env.sinks env.managerTarget

/-- Lookup in the `_hotkeys` dict. -/
def lookupHotkey : List (Finset Nat × Option String) → Finset Nat → Option (Option String)
  | [], _ => none
  | (c, t) :: rest, k => if c = k then some t else lookupHotkey rest k

/-- The `handle_release` detector: a key-down whose pressed set equals the
release chord arms it; otherwise, when a current sink exists, the detector is
armed and no key is held, it synchronises the sink, sleeps the debounce delay
and toggles the manager's released flag. -/
def handle_release (env : Env) (ev : InputEvent)
    (activeKeys sourceActive : Finset Nat) (isRelease : Bool) :
    Bool × List RepAction :=
  if ev.value = 1 ∧ env.releaseChord = some activeKeys then (true, [])
  else
    match currentSink env with
    | some sk =>
      if isRelease ∧ sourceActive = ∅ then
        (false, [.syn sk, .sleepDelay, .toggleReleased])
      else (isRelease, [])
    | none => (isRelease, [])

/-- The `handle_toggle` detector, identical in shape with the toggle chord and
a `toggle()` call on the manager. -/
def handle_toggle (env : Env) (ev : InputEvent)
    (activeKeys sourceActive : Finset Nat) (isToggle : Bool) :
    Bool × List RepAction :=
  if ev.value = 1 ∧ env.toggleChord = some activeKeys then (true, [])
  else
    match currentSink env with
    | some sk =>
      if isToggle ∧ sourceActive = ∅ then
        (false, [.syn sk, .sleepDelay, .callToggle])
      else (isToggle, [])
    | none => (isToggle, [])

/-- The `handle_hotkeys` detector: a key-down whose pressed set is a key of
`_hotkeys` records that chord; otherwise, when a current sink exists, a chord
is recorded (a non-empty frozenset, Python truthiness) and no key is held, it
synchronises the sink, sleeps and sets the manager target to the chord's
guest. -/
def handle_hotkeys (env : Env) (ev : InputEvent)
    (activeKeys sourceActive : Finset Nat) (trig : Option (Finset Nat)) :
    Option (Finset Nat) × List RepAction :=
  if ev.value = 1 ∧ (lookupHotkey env.hotkeys activeKeys).isSome then
    (some activeKeys, [])
  else
    match currentSink env with
    | some sk =>
      match trig with
      | some chord =>
        if chord ≠ ∅ ∧ sourceActive = ∅ then
          (none, [.syn sk, .sleepDelay,
                  .setTarget ((lookupHotkey env.hotkeys chord).getD none)])
        else (some chord, [])
      | none => (none, [])
    | none => (trig, [])

/-- One iteration of the `async for` body of `_replicate`: nothing at all
happens when no sink exists for the manager's current target; otherwise the
event is written to that sink first, and for `EV_KEY` events the three chord
detectors then run (the source gathers them; their synchronous prefixes run in
declaration order). -/
def replicateStep (env : Env) (ev : InputEvent)
    (activeKeys sourceActive : Finset Nat) (st : DetectorState) :
    DetectorState × List RepAction :=
  match currentSink env with
  | none => (st, [])
  | some sk =>
    if ev.type = EV_KEY then
      let r := handle_release env ev activeKeys sourceActive st.isRelease
      let t := handle_toggle env ev activeKeys sourceActive st.isToggle
      let h := handle_hotkeys env ev activeKeys sourceActive st.hotkeyTriggered
      (⟨r.1, t.1, h.1⟩, .writeEvent sk ev :: (r.2 ++ t.2 ++ h.2))
    else (st, [.writeEvent sk ev])

end ReplicatedDevice

/-- Python falsy-or on an optional string is the identity when the left side
is a non-empty name or a `none` paired with itself. -/
theorem pyOr_idem {v : Option String} (h : v ≠ some "") : pyOr v v = v := by
  cases v with
  | none => rfl
  | some t =>
    have ht : t ≠ "" := fun e => h (by rw [e])
    simp [pyOr, ht]

/-- Python falsy-or keeps a non-empty name. -/
theorem pyOr_some {g : String} (hg : g ≠ "") (b : Option String) :
    pyOr (some g) b = some g := by
  simp [pyOr, hg]

end Akeydo

namespace Akeydo

/-- C1.  The claim says an uncaught exception in a plug-in's `prepare` makes
`Prepare` return false.  In the source, `vm_prepare` schedules each plug-in
coroutine with `create_task` and never awaits it, so the method returns `True`
for a fresh guest with parseable XML even when a plug-in coroutine raises: the
exception is only seen later by the task's done-callback.  This evaluation of
the embedded code exhibits the divergence at the failing input. -/
theorem prepare_true_despite_plugin_exception :
    ServiceState.vm_prepare ServiceState.init "g" true [.raises] =
      (true, ⟨false, none, [none, some "g"], none⟩, [.raises]) := by decide

/-- C5.  The claim says allocation chooses the page size by memory size (at
least 1 GiB uses 1048576-kB pages, smaller uses 2048-kB pages).  In the source
`hugepagesz` is hardcoded to `1048576` (`TODO: FIX HACK`): a 512-MiB
hugepages-backed guest allocates nothing at all (0 one-GiB pages are needed
and `HugePages_Free >= 0` always holds) instead of using 2048-kB pages, and a
4-GiB request writes `total + 4` to the 1048576-kB file only when fewer than 4
pages are free, and nothing otherwise. -/
theorem memory_prepare_pagesize_hardcoded :
    MemoryManager.vm_prepare true (2 ^ 29) 0 7 = none ∧
    MemoryManager.vm_prepare true (4 * 2 ^ 30) 0 7 = some (1048576, 11) ∧
    MemoryManager.vm_prepare true (4 * 2 ^ 30) 4 7 = none := by
  refine ⟨by decide, by decide, by decide⟩

/-- C6.  The claim says the guest is marked as host override after the detach
sequence of a boot GPU, and non-boot PCI devices are not handled.  In the
source the branches are inverted: a boot GPU gets the detach sequence but no
`set_host` call, while the first non-boot device triggers
`self._service.set_host(vm_name)` and an immediate return. -/
theorem gpu_prepare_host_override_swapped :
    GpuManager.vm_prepare (fun _ => true) "g" [(0, 1, 0, 0)] =
      [.stopDisplayManager, .unbindVtcons, .unbindFramebuffer,
       .nodedevDetach, .unloadDriver, .loadVfio] ∧
    GpuManager.vm_prepare (fun _ => false) "g" [(0, 2, 0, 0)] =
      [.setHostCall (some "g")] := by
  refine ⟨rfl, rfl⟩

/-- C8.  Memory-unit parsing: for every count and every unit string in the
`_UNITS` table, the parsed memory is the count times the table's multiplier,
with decimal multipliers for KB/MB/GB/TB, binary ones for k/KiB, M/MiB, G/GiB
and T/TiB, and bytes when the unit attribute is absent. -/
theorem parse_memory_units (n : Nat) :
    VirtualMachineConfig.parse_memory n none = some (n * 1) ∧
    VirtualMachineConfig.parse_memory n (some "b") = some (n * 1) ∧
    VirtualMachineConfig.parse_memory n (some "bytes") = some (n * 1) ∧
    VirtualMachineConfig.parse_memory n (some "KB") = some (n * 1000) ∧
    VirtualMachineConfig.parse_memory n (some "k") = some (n * 1024) ∧
    VirtualMachineConfig.parse_memory n (some "KiB") = some (n * 1024) ∧
    VirtualMachineConfig.parse_memory n (some "MB") = some (n * 1000000) ∧
    VirtualMachineConfig.parse_memory n (some "M") = some (n * 1048576) ∧
    VirtualMachineConfig.parse_memory n (some "MiB") = some (n * 1048576) ∧
    VirtualMachineConfig.parse_memory n (some "GB") = some (n * 1000000000) ∧
    VirtualMachineConfig.parse_memory n (some "G") = some (n * 1073741824) ∧
    VirtualMachineConfig.parse_memory n (some "GiB") = some (n * 1073741824) ∧
    VirtualMachineConfig.parse_memory n (some "TB") = some (n * 1000000000000) ∧
    VirtualMachineConfig.parse_memory n (some "T") = some (n * 1099511627776) ∧
    VirtualMachineConfig.parse_memory n (some "TiB") = some (n * 1099511627776) :=
  ⟨rfl, rfl, rfl, rfl, rfl, rfl, rfl, rfl, rfl, rfl, rfl, rfl, rfl, rfl, rfl⟩

/-- C9.  Cpuset parsing: an attribute parses to the union of its
comma-separated elements; a single number yields a singleton; an inverted
range is normalized to the inclusive range; an element that fails to parse is
dropped without failing the rest, as in the spec's two literal examples. -/
theorem parse_cpuset_attr_spec :
    (∀ (s : String) (x : Int),
        x ∈ VirtualMachineConfig.parse_cpuset_attr s ↔
          ∃ t ∈ VirtualMachineConfig.splitOnChar ',' s.toList,
            x ∈ VirtualMachineConfig.parse_cpuset t) ∧
    VirtualMachineConfig.parse_cpuset "10".toList = [10] ∧
    VirtualMachineConfig.parse_cpuset "7-6".toList = [6, 7] ∧
    (VirtualMachineConfig.parse_cpuset_attr "1-3,5,7-6").toFinset =
      ({1, 2, 3, 5, 6, 7} : Finset Int) ∧
    (VirtualMachineConfig.parse_cpuset_attr "1,xx,3").toFinset =
      ({1, 3} : Finset Int) := by
  refine ⟨?_, by decide, by decide, by decide, by decide⟩
  intro s x
  simp [VirtualMachineConfig.parse_cpuset_attr, List.mem_flatMap]

/-- Counterexample to C2 as stated: with 2 CPUs and a guest that pins CPU 0,
the value written to the slices' `cpuset.cpus` is `{1}`, which does not
contain CPU 0. -/
theorem host_cpus_missing_cpu0_counterexample :
    CpuDriver.host_cpus (CpuDriver.applyOps [.shield [0]] (CpuDriver.mkDriver 2)) =
      ({1} : Finset Nat) ∧
    (0 : Nat) ∉
      CpuDriver.host_cpus (CpuDriver.applyOps [.shield [0]] (CpuDriver.mkDriver 2)) := by
  refine ⟨by decide, by decide⟩

/-- Applying shield and unshield calls never changes the driver's set of all
CPUs. -/
theorem applyOps_allCpus (ops : List CpuDriver.CpuOp) (d : CpuDriver.Driver) :
    (CpuDriver.applyOps ops d).allCpus = d.allCpus := by
  induction ops generalizing d with
  | nil => rfl
  | cons op rest ih =>
    cases op <;>
      simp [CpuDriver.applyOps, CpuDriver.shield_cpu, CpuDriver.unshield_cpu, ih]

/-- C2 (amended).  For every sequence of shield/unshield calls the host CPU
set written to the slices is always non-empty, and it contains CPU 0 whenever
CPU 0 is not currently pinned by a live guest (the fallback `{0}` additionally
retains CPU 0 when every CPU is pinned, but a guest pinning CPU 0 while other
CPUs remain free removes CPU 0 from the written set). -/
theorem host_cpus_nonempty_cpu0_when_unpinned
    (ops : List CpuDriver.CpuOp) (cores : Nat) (h0 : 0 < cores) :
    CpuDriver.host_cpus (CpuDriver.applyOps ops (CpuDriver.mkDriver cores)) ≠ ∅ ∧
    ((0 : Nat) ∉ (CpuDriver.applyOps ops (CpuDriver.mkDriver cores)).vmCpus →
      0 ∈ CpuDriver.host_cpus (CpuDriver.applyOps ops (CpuDriver.mkDriver cores))) := by
  set d := CpuDriver.applyOps ops (CpuDriver.mkDriver cores) with hd
  have hall : d.allCpus = Finset.range cores := by
    rw [hd, applyOps_allCpus]
    rfl
  constructor
  · unfold CpuDriver.host_cpus
    split
    · simp
    · assumption
  · intro hnot
    have hmem : 0 ∈ d.allCpus \ d.vmCpus := by
      rw [Finset.mem_sdiff, hall, Finset.mem_range]
      exact ⟨h0, hnot⟩
    unfold CpuDriver.host_cpus
    split
    · simp
    · assumption

/-- Witness for the amended C2 at a concrete input: 2 CPUs, a guest pinning
CPU 1; the written set is non-empty and contains CPU 0. -/
theorem host_cpus_nonempty_cpu0_witness :
    CpuDriver.host_cpus (CpuDriver.applyOps [.shield [1]] (CpuDriver.mkDriver 2)) ≠ ∅ ∧
    (0 : Nat) ∈
      CpuDriver.host_cpus (CpuDriver.applyOps [.shield [1]] (CpuDriver.mkDriver 2)) :=
  ⟨(host_cpus_nonempty_cpu0_when_unpinned [.shield [1]] 2 (by decide)).1,
   (host_cpus_nonempty_cpu0_when_unpinned [.shield [1]] 2 (by decide)).2 (by decide)⟩

/-- Counterexample to C4 as stated: releasing the managed guest "g" with
unparseable XML propagates the parse exception out of `vm_release` before any
cleanup, so "g" is still in `_targets` afterwards, contradicting the claim
that the call removes it. -/
theorem release_parse_failure_counterexample :
    ServiceState.vm_release ⟨false, none, [none, some "g"], some "g"⟩ "g" false =
      .raised ⟨false, none, [none, some "g"], some "g"⟩ ∧
    some "g" ∈ (⟨false, none, [none, some "g"], some "g"⟩ : ServiceState).targets := by
  refine ⟨by decide, by decide⟩

/-- C4 (amended).  For every `Release(g)` call where `g` is a managed guest
but the supplied XML fails to parse, the parse exception propagates out of
`vm_release` before any state change: the orchestrator state, `targets`
included, is left unchanged and `g` is not removed. -/
theorem release_parse_failure_leaves_state (s : ServiceState) (g : String)
    (hmem : some g ∈ s.targets) :
    ServiceState.vm_release s g false = .raised s := by
  simp [ServiceState.vm_release, hmem]

/-- Witness for the amended C4 at a concrete input. -/
theorem release_parse_failure_witness :
    ServiceState.vm_release ⟨false, none, [none, some "a"], none⟩ "a" false =
      .raised ⟨false, none, [none, some "a"], none⟩ :=
  release_parse_failure_leaves_state ⟨false, none, [none, some "a"], none⟩ "a" (by decide)

/-- C3.  Releasing the guest that is the active target removes it from the
ring, resets the active target to the host override when one is set and to
the true host otherwise, and emits exactly one `Target` property change whose
value displays that new target.  The hypotheses state reachable-state facts:
the guest is managed exactly once (`vm_prepare` refuses duplicates), it is the
active target, and names are non-empty. -/
theorem release_active_target_resets (s : ServiceState) (g : String)
    (hmem : some g ∈ s.targets) (hone : s.targets.count (some g) = 1)
    (hact : s.target = some g) (hg : g ≠ "") (hch : s.currentHost ≠ some "") :
    ∃ s', ServiceState.vm_release s g true = .ok true s' [display s'.currentHost] ∧
      some g ∉ s'.targets ∧ s'.target = s'.currentHost ∧ s'.released = false := by
  have hnotmem : some g ∉ s.targets.erase (some g) := by
    have hce := List.count_erase_self (a := some g) (l := s.targets)
    rw [hone] at hce
    exact List.count_eq_zero.mp hce
  by_cases hc : s.currentHost = some g
  · refine ⟨⟨false, none, none :: s.targets.erase (some g), none⟩, ?_, ?_, rfl, rfl⟩
    · simp [ServiceState.vm_release, ServiceState.set_host, ServiceState.targetSet,
        ServiceState.targetGet, hmem, hact, hc, pyOr_some hg, pyOr, display, hg]
    · simp [hnotmem]
  · have hc2 : some g ≠ s.currentHost := fun e => hc e.symm
    refine ⟨⟨false, s.currentHost, s.targets.erase (some g), s.currentHost⟩, ?_, ?_, rfl, rfl⟩
    · simp [ServiceState.vm_release, ServiceState.set_host, ServiceState.targetSet,
        ServiceState.targetGet, hmem, hact, pyOr_idem hch, hc, hc2]
    · exact hnotmem

/-- Witness for C3: releasing the active guest "a" on a service managing only
"a" resets the target to the host and emits "host device". -/
theorem release_active_target_witness :
    ∃ s', ServiceState.vm_release ⟨false, none, [none, some "a"], some "a"⟩ "a" true =
        .ok true s' [display s'.currentHost] ∧
      some "a" ∉ s'.targets ∧ s'.target = s'.currentHost ∧ s'.released = false :=
  release_active_target_resets ⟨false, none, [none, some "a"], some "a"⟩ "a"
    (by decide) (by decide) rfl (by decide) (by decide)

/-- The list index computed by the embedding's default boolean-equality
instance agrees with the decidable-equality instance Mathlib's index lemmas
are stated for. -/
theorem indexOf_beq_congr (t : Option String) (l : List (Option String)) :
    l.indexOf t = @List.indexOf _ instBEqOfDecidableEq t l := by
  unfold List.indexOf
  congr 1
  funext x
  simp [beq_eq_decide]

/-- The index of a member is within bounds. -/
theorem indexOf_lt_length_mem {t : Option String} {l : List (Option String)}
    (h : t ∈ l) : l.indexOf t < l.length := by
  rw [indexOf_beq_congr]
  exact List.indexOf_lt_length.mpr h

/-- Reading a list back at the index of a member returns that member. -/
theorem getD_indexOf_mem {t : Option String} {l : List (Option String)}
    (h : t ∈ l) : l.getD (l.indexOf t) none = t := by
  rw [indexOf_beq_congr]
  have hi := List.indexOf_lt_length.mpr h
  rw [List.getD_eq_getElem _ _ hi, List.getElem_indexOf hi]

/-- On a duplicate-free list the index of the element at a valid position is
that position. -/
theorem indexOf_getD_nodup {l : List (Option String)} (hnd : l.Nodup)
    (j : Nat) (hj : j < l.length) : l.indexOf (l.getD j none) = j := by
  rw [indexOf_beq_congr, List.getD_eq_getElem _ _ hj]
  exact List.indexOf_getElem hnd j hj

/-- An in-bounds default read is a member of the list. -/
theorem getD_mem_of_lt (l : List (Option String)) (j : Nat) (hj : j < l.length) :
    l.getD j none ∈ l := by
  rw [List.getD_eq_getElem _ _ hj]
  exact List.getElem_mem hj

/-- The ring successor of any element stays inside a non-empty ring. -/
theorem ringNext_mem (l : List (Option String)) (t : Option String) (hne : l ≠ []) :
    ServiceState.ringNext l t ∈ l := by
  have hn : 0 < l.length := List.length_pos.mpr hne
  exact getD_mem_of_lt l _ (Nat.mod_lt _ hn)

/-- One `Toggle` keeps the ring and the current host unchanged and moves the
active target to the ring successor, whether or not the property setter takes
its no-op branch. -/
theorem toggle_preserves (s : ServiceState) (hne : s.targets ≠ [])
    (hid : ∀ t ∈ s.targets, pyOr t s.currentHost = t) :
    (ServiceState.toggle s).1.targets = s.targets ∧
    (ServiceState.toggle s).1.currentHost = s.currentHost ∧
    (ServiceState.toggle s).1.target = ServiceState.ringNext s.targets s.target := by
  have hrn := ringNext_mem s.targets s.target hne
  have hval := hid _ hrn
  unfold ServiceState.toggle ServiceState.targetSet
  rw [hval]
  by_cases he : ServiceState.ringNext s.targets s.target = s.target
  · rw [if_pos he]
    exact ⟨rfl, rfl, he.symm⟩
  · rw [if_neg he]
    exact ⟨rfl, rfl, rfl⟩

/-- Iterating `Toggle` k times advances the active target k ring positions. -/
theorem toggleN_target (k : Nat) (s : ServiceState) (hne : s.targets ≠ [])
    (hnd : s.targets.Nodup) (hmem : s.target ∈ s.targets)
    (hid : ∀ t ∈ s.targets, pyOr t s.currentHost = t) :
    (ServiceState.toggleN k s).targets = s.targets ∧
    (ServiceState.toggleN k s).currentHost = s.currentHost ∧
    (ServiceState.toggleN k s).target =
      s.targets.getD ((s.targets.indexOf s.target + k) % s.targets.length) none := by
  induction k generalizing s with
  | zero =>
    refine ⟨rfl, rfl, ?_⟩
    have hi := indexOf_lt_length_mem hmem
    rw [Nat.add_zero, Nat.mod_eq_of_lt hi, getD_indexOf_mem hmem]
    rfl
  | succ k ih =>
    obtain ⟨hT, hH, ht⟩ := toggle_preserves s hne hid
    have hn : 0 < s.targets.length := List.length_pos.mpr hne
    have hidx : (s.targets.indexOf s.target + 1) % s.targets.length < s.targets.length :=
      Nat.mod_lt _ hn
    have htv : (ServiceState.toggle s).1.target =
        s.targets.getD ((s.targets.indexOf s.target + 1) % s.targets.length) none := ht
    have hne2 : (ServiceState.toggle s).1.targets ≠ [] := by rw [hT]; exact hne
    have hnd2 : (ServiceState.toggle s).1.targets.Nodup := by rw [hT]; exact hnd
    have hmem2 : (ServiceState.toggle s).1.target ∈ (ServiceState.toggle s).1.targets := by
      rw [htv, hT]
      exact getD_mem_of_lt s.targets _ hidx
    have hid2 : ∀ t ∈ (ServiceState.toggle s).1.targets,
        pyOr t (ServiceState.toggle s).1.currentHost = t := by
      rw [hT, hH]
      exact hid
    obtain ⟨iT, iH, it⟩ := ih (ServiceState.toggle s).1 hne2 hnd2 hmem2 hid2
    have hstep : ServiceState.toggleN (k + 1) s =
        ServiceState.toggleN k (ServiceState.toggle s).1 := rfl
    refine ⟨by rw [hstep, iT, hT], by rw [hstep, iH, hH], ?_⟩
    rw [hstep, it, hT, htv, indexOf_getD_nodup hnd _ hidx, Nat.mod_add_mod]
    have harg : s.targets.indexOf s.target + 1 + k =
        s.targets.indexOf s.target + (k + 1) := by omega
    rw [harg]

/-- C7.  One `Toggle` advances the active target to
`targets[(index(active_target) + 1) mod len(targets)]`, and `len(targets)`
applications of `Toggle` return the active target to its original value.  The
hypotheses state the reachable ring shape: non-empty, duplicate-free,
containing the active target, and with every element surviving the setter's
falsy-or conversion (the true host `none` is in the ring only while no host
override is set, and guest names are non-empty). -/
theorem toggle_advances_and_cycles (s : ServiceState) (hne : s.targets ≠ [])
    (hnd : s.targets.Nodup) (hmem : s.target ∈ s.targets)
    (hid : ∀ t ∈ s.targets, pyOr t s.currentHost = t) :
    (ServiceState.toggle s).1.target =
      s.targets.getD ((s.targets.indexOf s.target + 1) % s.targets.length) none ∧
    (ServiceState.toggleN s.targets.length s).target = s.target := by
  constructor
  · exact (toggle_preserves s hne hid).2.2
  · have h := (toggleN_target s.targets.length s hne hnd hmem hid).2.2
    have hi := indexOf_lt_length_mem hmem
    rw [h, Nat.add_mod_right, Nat.mod_eq_of_lt hi, getD_indexOf_mem hmem]

/-- Witness for C7: with ring `[host, "a", "b"]` and active target "a", one
`Toggle` selects "b" and three `Toggle` calls return to "a". -/
theorem toggle_advances_witness :
    (ServiceState.toggle ⟨false, none, [none, some "a", some "b"], some "a"⟩).1.target =
      some "b" ∧
    (ServiceState.toggleN 3 ⟨false, none, [none, some "a", some "b"], some "a"⟩).target =
      some "a" := by
  have h := toggle_advances_and_cycles ⟨false, none, [none, some "a", some "b"], some "a"⟩
    (by decide) (by decide) (by decide) (by decide)
  exact ⟨h.1.trans (by decide), h.2⟩

end Akeydo

namespace Akeydo.ReplicatedDevice

/-- All actions of the release detector go to the current sink or the manager:
it never writes the event itself, and its `syn` targets the current sink. -/
theorem handle_release_actions (env : Env) (ev : InputEvent)
    (ak sa : Finset Nat) (b : Bool) (sk : Nat) (h : currentSink env = some sk) :
    ∀ a ∈ (handle_release env ev ak sa b).2,
      a = RepAction.syn sk ∨ a = RepAction.sleepDelay ∨ a = RepAction.toggleReleased := by
  intro a ha
  simp only [handle_release, h] at ha
  split_ifs at ha with h1 h2
  · simp at ha
  · simp at ha
    rcases ha with h3 | h3 | h3 <;> simp [h3]
  · simp at ha

/-- The toggle detector likewise emits only sink-sync, sleep and a `toggle()`
call. -/
theorem handle_toggle_actions (env : Env) (ev : InputEvent)
    (ak sa : Finset Nat) (b : Bool) (sk : Nat) (h : currentSink env = some sk) :
    ∀ a ∈ (handle_toggle env ev ak sa b).2,
      a = RepAction.syn sk ∨ a = RepAction.sleepDelay ∨ a = RepAction.callToggle := by
  intro a ha
  simp only [handle_toggle, h] at ha
  split_ifs at ha with h1 h2
  · simp at ha
  · simp at ha
    rcases ha with h3 | h3 | h3 <;> simp [h3]
  · simp at ha

/-- The guest-hotkey detector likewise emits only sink-sync, sleep and a
target assignment. -/
theorem handle_hotkeys_actions (env : Env) (ev : InputEvent)
    (ak sa : Finset Nat) (trig : Option (Finset Nat)) (sk : Nat)
    (h : currentSink env = some sk) :
    ∀ a ∈ (handle_hotkeys env ev ak sa trig).2,
      a = RepAction.syn sk ∨ a = RepAction.sleepDelay ∨
        ∃ t, a = RepAction.setTarget t := by
  intro a ha
  cases trig with
  | none =>
    simp only [handle_hotkeys, h] at ha
    split_ifs at ha <;> simp at ha
  | some chord =>
    simp only [handle_hotkeys, h] at ha
    split_ifs at ha with h1 h2
    · simp at ha
    · simp at ha
      rcases ha with h3 | h3 | h3
      · simp [h3]
      · simp [h3]
      · exact Or.inr (Or.inr ⟨_, h3⟩)
    · simp at ha

/-- C10.  One iteration of the replicate loop: when the sink map has no sink
for the manager's current target, the event is written nowhere and the chord
detectors do not run (the detector state is unchanged and no action at all is
emitted); when a sink exists, the event is written to exactly that one sink as
the first action, and the remaining detector actions never write an event and
only synchronise that same sink. -/
theorem replicate_routes_single_sink (env : Env) (ev : InputEvent)
    (activeKeys sourceActive : Finset Nat) (st : DetectorState) :
    (currentSink env = none →
      replicateStep env ev activeKeys sourceActive st = (st, [])) ∧
    (∀ sk, currentSink env = some sk →
      ∃ rest, (replicateStep env ev activeKeys sourceActive st).2 =
          RepAction.writeEvent sk ev :: rest ∧
        ∀ a ∈ rest, (∀ sk2 ev2, a ≠ RepAction.writeEvent sk2 ev2) ∧
          (∀ sk2, a = RepAction.syn sk2 → sk2 = sk)) := by
  constructor
  · intro h
    simp [replicateStep, h]
  · intro sk h
    by_cases hk : ev.type = EV_KEY
    · refine ⟨(handle_release env ev activeKeys sourceActive st.isRelease).2 ++
        (handle_toggle env ev activeKeys sourceActive st.isToggle).2 ++
        (handle_hotkeys env ev activeKeys sourceActive st.hotkeyTriggered).2, ?_, ?_⟩
      · simp [replicateStep, h, hk]
      · intro a ha
        simp only [List.mem_append] at ha
        have key : a = RepAction.syn sk ∨ a = RepAction.sleepDelay ∨
            a = RepAction.toggleReleased ∨ a = RepAction.callToggle ∨
            ∃ t, a = RepAction.setTarget t := by
          rcases ha with (ha | ha) | ha
          · rcases handle_release_actions env ev activeKeys sourceActive st.isRelease sk h
              a ha with h1 | h1 | h1 <;> simp [h1]
          · rcases handle_toggle_actions env ev activeKeys sourceActive st.isToggle sk h
              a ha with h1 | h1 | h1 <;> simp [h1]
          · rcases handle_hotkeys_actions env ev activeKeys sourceActive st.hotkeyTriggered sk h
              a ha with h1 | h1 | h1 <;> simp [h1]
        rcases key with h1 | h1 | h1 | h1 | ⟨t, h1⟩ <;> subst h1 <;>
          exact ⟨(by intro sk2 ev2 hcon; cases hcon),
                 (by intro sk2 hcon; cases hcon <;> rfl)⟩
    · refine ⟨[], ?_, by intro a ha; cases ha⟩
      simp [replicateStep, h, hk]

/-- Witness for C10: a key event on a device whose sink map is empty while
the manager targets the host is dropped entirely and leaves the detector
state untouched. -/
theorem replicate_no_sink_witness :
    replicateStep ⟨fun _ => none, none, none, none, []⟩ ⟨1, 30, 1⟩ ∅ ∅
        ⟨false, false, none⟩ =
      (⟨false, false, none⟩, []) :=
  (replicate_routes_single_sink ⟨fun _ => none, none, none, none, []⟩ ⟨1, 30, 1⟩ ∅ ∅
    ⟨false, false, none⟩).1 rfl

end Akeydo.ReplicatedDevice
